import Mathlib

/-!
Shallow embedding of `baselines/common/models.py`: a catalog of neural-network
architecture builders.  Network functions build a symbolic tensor graph (`T`);
`shapeOf` gives the static shape semantics of each graph node.  Builders whose
framework collaborators (`conv`, `fc`, `conv_to_fc`, the recurrent cell,
`RunningMeanStd`) live outside the provided sources model those collaborators
from the specification, as noted in the doc comments.
-/

namespace Models

/-- Activation functions used in the module (`tf.nn.relu`, `tf.tanh`). -/
inductive Act where
  | relu
  | tanh
deriving DecidableEq

/-- Initialization scale passed to layer constructors: all call sites in the
module use `np.sqrt(2)`; the framework default is `1.0`. -/
inductive InitScale where
  | sqrtTwo
  | one
deriving DecidableEq

/-- Padding mode of a convolution: `conv` from `baselines.a2c.utils` uses
`VALID`, `tf.contrib.layers.convolution2d` defaults to `SAME`. -/
inductive Pad where
  | valid
  | same
deriving DecidableEq

/-- Symbolic tensor graph built by a network function.  Each constructor
records one layer or graph primitive with the exact parameters the Python
code passes.  `seqLstm`/`seqLstmState` stand for the merged output
`seq_to_batch(lstm_or_lnlstm(batch_to_seq(x), batch_to_seq(M), S))` and its
updated-state output.

Modelled from the spec: the primitives `conv`, `fc`, `conv_to_fc`,
`batch_to_seq`, `seq_to_batch`, `lstm` and `lnlstm` come from
`baselines.a2c.utils`, which is not among the provided sources; their shapes
follow the spec (§4.2, §4.5, §6): convolution/dense/flatten primitives, a
recurrent cell carrying state sized `[env_count, 2 * hidden_size]`, and
sequence reshape utilities. -/
inductive T where
  | input (shape : List ℕ)
  | placeholder (shape : List ℕ)
  | castDiv255 (t : T)
  | act (a : Act) (t : T)
  | conv (t : T) (scope : String) (nf rf stride : ℕ) (initScale : InitScale) (pad : Pad)
  | fc (t : T) (scope : String) (nh : ℕ) (initScale : InitScale)
  | convToFc (t : T)
  | flatten (t : T)
  | seqLstm (layerNorm : Bool) (scope : String) (nh : ℕ) (x m s : T) (nenv nsteps : ℕ)
  | seqLstmState (layerNorm : Bool) (scope : String) (nh : ℕ) (x m s : T) (nenv nsteps : ℕ)
deriving DecidableEq

/-- Spatial output size of a VALID convolution: `(h - rf) / stride + 1`. -/
def convOut (h rf stride : ℕ) : ℕ := (h - rf) / stride + 1

/-- Spatial output size of a SAME convolution: `⌈h / stride⌉`. -/
def convOutSame (h stride : ℕ) : ℕ := (h + stride - 1) / stride

/-- Static shape of a graph node, or an error when the framework would reject
the layer (wrong rank, kernel larger than the input under VALID padding). -/
def shapeOf : T → Except String (List ℕ)
  | .input s => .ok s
  | .placeholder s => .ok s
  | .castDiv255 t => shapeOf t
  | .act _ t => shapeOf t
  | .conv t _ nf rf stride _ pad => do
      let s ← shapeOf t
      match s with
      | [n, h, w, _c] =>
        match pad with
        | .valid =>
          if rf ≤ h ∧ rf ≤ w ∧ 0 < stride then
            .ok [n, convOut h rf stride, convOut w rf stride, nf]
          else .error "conv: kernel does not fit input"
        | .same =>
          if 0 < stride then
            .ok [n, convOutSame h stride, convOutSame w stride, nf]
          else .error "conv: stride must be positive"
      | _ => .error "conv: expected a rank-4 input"
  | .fc t _ nh _ => do
      let s ← shapeOf t
      match s with
      | [n, _] => .ok [n, nh]
      | _ => .error "fc: expected a rank-2 input"
  | .convToFc t => do
      let s ← shapeOf t
      match s with
      | [n, h, w, c] => .ok [n, h * w * c]
      | _ => .error "conv_to_fc: expected a rank-4 input"
  | .flatten t => do
      let s ← shapeOf t
      match s with
      | n :: rest => .ok [n, rest.prod]
      | [] => .error "flatten: expected at least rank 1"
  | .seqLstm _ _ nh _ _ _ nenv nsteps => .ok [nenv * nsteps, nh]
  | .seqLstmState _ _ nh _ _ _ nenv _ => .ok [nenv, 2 * nh]

/-- The `(filters, kernel, stride)` triples of the convolution layers of a
graph, in application order. -/
def convSpecs : T → List (ℕ × ℕ × ℕ)
  | .input _ => []
  | .placeholder _ => []
  | .castDiv255 t => convSpecs t
  | .act _ t => convSpecs t
  | .conv t _ nf rf stride _ _ => convSpecs t ++ [(nf, rf, stride)]
  | .fc t _ _ _ => convSpecs t
  | .convToFc t => convSpecs t
  | .flatten t => convSpecs t
  | .seqLstm _ _ _ x m s _ _ => convSpecs x ++ convSpecs m ++ convSpecs s
  | .seqLstmState _ _ _ x m s _ _ => convSpecs x ++ convSpecs m ++ convSpecs s

/-- The widths of the fully-connected layers of a graph, in application
order. -/
def fcSpecs : T → List ℕ
  | .input _ => []
  | .placeholder _ => []
  | .castDiv255 t => fcSpecs t
  | .act _ t => fcSpecs t
  | .conv t _ _ _ _ _ _ => fcSpecs t
  | .fc t _ nh _ => fcSpecs t ++ [nh]
  | .convToFc t => fcSpecs t
  | .flatten t => fcSpecs t
  | .seqLstm _ _ _ x m s _ _ => fcSpecs x ++ fcSpecs m ++ fcSpecs s
  | .seqLstmState _ _ _ x m s _ _ => fcSpecs x ++ fcSpecs m ++ fcSpecs s

/-- The activations applied in a graph, in application order. -/
def actSpecs : T → List Act
  | .input _ => []
  | .placeholder _ => []
  | .castDiv255 t => actSpecs t
  | .act a t => actSpecs t ++ [a]
  | .conv t _ _ _ _ _ _ => actSpecs t
  | .fc t _ _ _ => actSpecs t
  | .convToFc t => actSpecs t
  | .flatten t => actSpecs t
  | .seqLstm _ _ _ x m s _ _ => actSpecs x ++ actSpecs m ++ actSpecs s
  | .seqLstmState _ _ _ x m s _ _ => actSpecs x ++ actSpecs m ++ actSpecs s

/-- The `(nenv, nsteps)` pair of the outermost sequence-LSTM node, if any. -/
def seqLstmSteps : T → Option (ℕ × ℕ)
  | .seqLstm _ _ _ _ _ _ nenv nsteps => some (nenv, nsteps)
  | _ => none

/-- `nature_cnn(unscaled_images)`: cast to float and divide by 255, three
VALID convolutions (32/64/64 filters, kernels 8/4/3, strides 4/2/1, each
init-scaled by √2 and relu-activated), flatten, then a relu-activated
fully-connected layer of width 512. -/
def nature_cnn (unscaled_images : T) : T :=
  let scaled_images := T.castDiv255 unscaled_images
  let h := T.act .relu (T.conv scaled_images "c1" 32 8 4 .sqrtTwo .valid)
  let h2 := T.act .relu (T.conv h "c2" 64 4 2 .sqrtTwo .valid)
  let h3 := T.act .relu (T.conv h2 "c3" 64 3 1 .sqrtTwo .valid)
  let h3f := T.convToFc h3
  T.act .relu (T.fc h3f "fc1" 512 .sqrtTwo)

/-- The network function returned by `cnn(**conv_kwargs)`. -/
def cnn_network_fn (X : T) : T × Option Unit :=
  (nature_cnn X, none)

/-- The hard-coded local list `hidden_layer_sizes = [64, 64]` in
`mlp.network_fn`. -/
def hidden_layer_sizes : List ℕ := [64, 64]

/-- The hard-coded local list `activations = [tf.nn.relu, tf.nn.relu]` in
`mlp.network_fn`. -/
def activations : List Act := [.relu, .relu]

/-- Scope name `'mlp_fc{}'.format(i)`. -/
def mlp_fc_scope (i : ℕ) : String := "mlp_fc" ++ toString i

/-- The loop `for i in range(num_layers)` of `mlp.network_fn`: layer `i`
applies `activations[i](fc(h, 'mlp_fc{i}', nh=hidden_layer_sizes[i],
init_scale=np.sqrt(2)))`; indexing either hard-coded list out of range raises
an `IndexError`. -/
def mlpLayers (h : T) : ℕ → Except String T
  | 0 => .ok h
  | i + 1 => do
      let h' ← mlpLayers h i
      match activations.get? i, hidden_layer_sizes.get? i with
      | some a, some nh => .ok (T.act a (T.fc h' (mlp_fc_scope i) nh .sqrtTwo))
      | _, _ => .error "IndexError: list index out of range"

/-- The network function returned by `mlp(num_layers, num_hidden, activation)`:
flatten the input, then run the layer loop.  `num_hidden` and `activation`
are captured by the closure but never used to build a layer (they are
shadowed by the hard-coded lists). -/
def mlp_network_fn (num_layers num_hidden : ℕ) (activation : Act) (X : T) :
    Except String (T × Option Unit) := do
  let h := T.flatten X
  let h' ← mlpLayers h num_layers
  .ok (h', none)

/-- The network function returned by `cnn_small(**conv_kwargs)`: divide by
255, two relu-activated VALID convolutions (8 and 16 filters, kernels 8/4,
strides 4/2), flatten, then a relu-activated fully-connected layer of width
128. -/
def cnn_small_network_fn (X : T) : T × Option Unit :=
  let h := T.castDiv255 X
  let h1 := T.act .relu (T.conv h "c1" 8 8 4 .sqrtTwo .valid)
  let h2 := T.act .relu (T.conv h1 "c2" 16 4 2 .sqrtTwo .valid)
  let h3 := T.convToFc h2
  (T.act .relu (T.fc h3 "fc1" 128 .sqrtTwo), none)

/-- Default `convs` argument of `conv_only`. -/
def conv_only_default_convs : List (ℕ × ℕ × ℕ) := [(32, 8, 4), (64, 4, 2), (64, 3, 1)]

/-- One iteration of the `conv_only` loop:
`layers.convolution2d(out, num_outputs, kernel_size, stride,
activation_fn=tf.nn.relu)` (SAME padding, framework-default init). -/
def convLayer (out : T) (p : ℕ × ℕ × ℕ) : T :=
  T.act .relu (T.conv out "convnet" p.1 p.2.1 p.2.2 .one .same)

/-- The network function returned by `conv_only(convs)`: divide by 255, then
one relu-activated SAME convolution per `(filters, kernel, stride)` triple of
`convs`, in order. -/
def conv_only_network_fn (convs : List (ℕ × ℕ × ℕ)) (X : T) : T × Option Unit :=
  (convs.foldl convLayer (T.castDiv255 X), none)

/-- The state dictionary `{'S': S, 'M': M, 'state': snew,
'initial_state': initial_state}` returned by the recurrent network
functions. -/
structure StateDict where
  S : T
  M : T
  state : T
  initial_state : List (List ℚ)
deriving DecidableEq

/-- The network function returned by `lstm(nlstm, layer_norm)`:
`nbatch = X.shape[0]`, `nsteps = nbatch // nenv`, flatten the input, create
the mask placeholder `[nbatch]` and state placeholder `[nenv, 2*nlstm]`, run
the (optionally layer-normalized) recurrent cell over the per-environment
sequences, and return the merged output with the state dictionary whose
`initial_state` is `np.zeros(S.shape.as_list())`. -/
def lstm_network_fn (nlstm : ℕ) (layer_norm : Bool) (X : T) (nenv : ℕ) :
    Except String (T × StateDict) := do
  let xshape ← shapeOf X
  let nbatch ← match xshape with
    | n :: _ => Except.ok n
    | [] => Except.error "IndexError: tuple index out of range"
  if nenv = 0 then
    Except.error "ZeroDivisionError: integer division or modulo by zero"
  else
    let nsteps := nbatch / nenv
    let h := T.flatten X
    let M := T.placeholder [nbatch]
    let S := T.placeholder [nenv, 2 * nlstm]
    let scope := if layer_norm then "lnlstm" else "lstm"
    let hOut := T.seqLstm layer_norm scope nlstm h M S nenv nsteps
    let snew := T.seqLstmState layer_norm scope nlstm h M S nenv nsteps
    let initial_state := List.replicate nenv (List.replicate (2 * nlstm) (0 : ℚ))
    .ok (hOut, ⟨S, M, snew, initial_state⟩)

/-- The network function returned by `cnn_lstm(nlstm, layer_norm)`: same as
`lstm`'s but the features fed to the cell come from `nature_cnn(X)` instead
of flattening. -/
def cnn_lstm_network_fn (nlstm : ℕ) (layer_norm : Bool) (X : T) (nenv : ℕ) :
    Except String (T × StateDict) := do
  let xshape ← shapeOf X
  let nbatch ← match xshape with
    | n :: _ => Except.ok n
    | [] => Except.error "IndexError: tuple index out of range"
  if nenv = 0 then
    Except.error "ZeroDivisionError: integer division or modulo by zero"
  else
    let nsteps := nbatch / nenv
    let h := nature_cnn X
    let M := T.placeholder [nbatch]
    let S := T.placeholder [nenv, 2 * nlstm]
    let scope := if layer_norm then "lnlstm" else "lstm"
    let hOut := T.seqLstm layer_norm scope nlstm h M S nenv nsteps
    let snew := T.seqLstmState layer_norm scope nlstm h M S nenv nsteps
    let initial_state := List.replicate nenv (List.replicate (2 * nlstm) (0 : ℚ))
    .ok (hOut, ⟨S, M, snew, initial_state⟩)

/-- `cnn_lnlstm(nlstm, **conv_kwargs) = cnn_lstm(nlstm, layer_norm=True,
**conv_kwargs)`. -/
def cnn_lnlstm_network_fn (nlstm : ℕ) (X : T) (nenv : ℕ) :
    Except String (T × StateDict) :=
  cnn_lstm_network_fn nlstm true X nenv

/-- Output shape and state-dictionary shapes of a recurrent network-function
result (the observable structure shared by `cnn_lstm` and `cnn_lnlstm`). -/
def recShapes (r : Except String (T × StateDict)) :
    Except String (Except String (List ℕ) × Except String (List ℕ) ×
      Except String (List ℕ) × Except String (List ℕ) × List (List ℚ)) :=
  r.map fun p => (shapeOf p.1, shapeOf p.2.S, shapeOf p.2.M, shapeOf p.2.state,
    p.2.initial_state)

/-- A numeric tensor: a static shape and a value at each multi-index. -/
structure VTensor where
  shape : List ℕ
  val : List ℕ → ℚ

/-- Modelled from the spec: `RunningMeanStd` from
`baselines.common.mpi_running_mean_std` is not among the provided sources;
per the spec it is "an online estimator of per-feature mean and variance
used to normalize inputs", maintained over the per-feature shape. -/
structure RunningMeanStd where
  shape : List ℕ
  mean : List ℕ → ℚ
  std : List ℕ → ℚ

/-- Modelled from the spec: constructing the estimator over a given
per-feature shape; before any update the estimate is a zero mean and a unit
standard deviation. -/
def RunningMeanStd.create (shape : List ℕ) : RunningMeanStd :=
  ⟨shape, fun _ => 0, fun _ => 1⟩

/-- `tf.clip_by_value(v, lo, hi) = min(max(v, lo), hi)`. -/
def clip_by_value (v lo hi : ℚ) : ℚ := min (max v lo) hi

/-- Python `min` over a non-empty list (`0` on the empty list, where Python
would raise). -/
def pymin : List ℚ → ℚ
  | [] => 0
  | a :: as => as.foldl min a

/-- Python `max` over a non-empty list (`0` on the empty list, where Python
would raise). -/
def pymax : List ℚ → ℚ
  | [] => 0
  | a :: as => as.foldl max a

/-- The default `clip_range=[-5.0, 5.0]` of `_normalize_clip_observation`. -/
def clip_range_default : List ℚ := [-5, 5]

/-- `_normalize_clip_observation(x, clip_range)`: build a `RunningMeanStd`
over `x.shape[1:]`, subtract its mean, divide by its standard deviation,
clip to `[min(clip_range), max(clip_range)]`, and return the clipped tensor
together with the estimator. -/
def normalize_clip_observation (x : VTensor) (clip_range : List ℚ) :
    VTensor × RunningMeanStd :=
  let rms := RunningMeanStd.create x.shape.tail
  let norm_x : VTensor :=
    ⟨x.shape, fun ix =>
      clip_by_value ((x.val ix - rms.mean ix.tail) / rms.std ix.tail)
        (pymin clip_range) (pymax clip_range)⟩
  (norm_x, rms)

/-- The builders the registry can return. -/
inductive NetworkBuilder where
  | cnn
  | cnn_small
  | conv_only
  | mlp
  | lstm
  | cnn_lstm
  | cnn_lnlstm
deriving DecidableEq

/-- The names recognized by `get_network_builder`, in the order of its
conditional chain. -/
def recognized_names : List String :=
  ["cnn", "cnn_small", "conv_only", "mlp", "lstm", "cnn_lstm", "cnn_lnlstm"]

/-- `get_network_builder(name)`: the conditional chain mapping a name to its
builder, raising `ValueError('Unknown network type: {}'.format(name))`
otherwise. -/
def get_network_builder (name : String) : Except String NetworkBuilder :=
  if name = "cnn" then .ok .cnn
  else if name = "cnn_small" then .ok .cnn_small
  else if name = "conv_only" then .ok .conv_only
  else if name = "mlp" then .ok .mlp
  else if name = "lstm" then .ok .lstm
  else if name = "cnn_lstm" then .ok .cnn_lstm
  else if name = "cnn_lnlstm" then .ok .cnn_lnlstm
  else .error ("Unknown network type: " ++ name)

/-- Equality of `Except` results is decidable when both components are. -/
instance {ε α : Type} [DecidableEq ε] [DecidableEq α] : DecidableEq (Except ε α) := fun x y =>
  match x, y with
  | .ok a, .ok b => if h : a = b then .isTrue (by rw [h]) else .isFalse (by simp [h])
  | .error a, .error b => if h : a = b then .isTrue (by rw [h]) else .isFalse (by simp [h])
  | .ok _, .error _ => .isFalse (by simp)
  | .error _, .ok _ => .isFalse (by simp)

/-! ### Basic lemmas about `shapeOf` -/

theorem shapeOf_castDiv255 (t : T) : shapeOf (T.castDiv255 t) = shapeOf t := rfl

theorem shapeOf_act (a : Act) (t : T) : shapeOf (T.act a t) = shapeOf t := rfl

theorem shapeOf_conv_valid {t : T} {n h w c : ℕ} (ht : shapeOf t = .ok [n, h, w, c])
    (s : String) (nf rf stride : ℕ) (iSc : InitScale)
    (h1 : rf ≤ h) (h2 : rf ≤ w) (h3 : 0 < stride) :
    shapeOf (T.conv t s nf rf stride iSc .valid) =
      .ok [n, convOut h rf stride, convOut w rf stride, nf] := by
  rw [shapeOf, ht]
  show (if rf ≤ h ∧ rf ≤ w ∧ 0 < stride then
      Except.ok [n, convOut h rf stride, convOut w rf stride, nf]
    else Except.error "conv: kernel does not fit input") = _
  rw [if_pos ⟨h1, h2, h3⟩]

theorem shapeOf_conv_same {t : T} {n h w c : ℕ} (ht : shapeOf t = .ok [n, h, w, c])
    (s : String) (nf rf stride : ℕ) (iSc : InitScale) (h3 : 0 < stride) :
    shapeOf (T.conv t s nf rf stride iSc .same) =
      .ok [n, convOutSame h stride, convOutSame w stride, nf] := by
  rw [shapeOf, ht]
  show (if 0 < stride then
      Except.ok [n, convOutSame h stride, convOutSame w stride, nf]
    else Except.error "conv: stride must be positive") = _
  rw [if_pos h3]

theorem shapeOf_fc {t : T} {n d : ℕ} (ht : shapeOf t = .ok [n, d])
    (s : String) (nh : ℕ) (iSc : InitScale) :
    shapeOf (T.fc t s nh iSc) = .ok [n, nh] := by
  rw [shapeOf, ht]
  rfl

theorem shapeOf_convToFc {t : T} {n h w c : ℕ} (ht : shapeOf t = .ok [n, h, w, c]) :
    shapeOf (T.convToFc t) = .ok [n, h * w * c] := by
  rw [shapeOf, ht]
  rfl

theorem shapeOf_flatten {t : T} {n : ℕ} {rest : List ℕ} (ht : shapeOf t = .ok (n :: rest)) :
    shapeOf (T.flatten t) = .ok [n, rest.prod] := by
  rw [shapeOf, ht]
  rfl

/-! ### C1: the registry -/

/-- C1: for every name in {cnn, cnn_small, conv_only, mlp, lstm, cnn_lstm,
cnn_lnlstm}, `get_network_builder` returns the corresponding builder, and for
every name outside that set it fails with the "Unknown network type" error —
no partial matching, no default fallback. -/
theorem get_network_builder_spec :
    (get_network_builder "cnn" = .ok .cnn ∧
     get_network_builder "cnn_small" = .ok .cnn_small ∧
     get_network_builder "conv_only" = .ok .conv_only ∧
     get_network_builder "mlp" = .ok .mlp ∧
     get_network_builder "lstm" = .ok .lstm ∧
     get_network_builder "cnn_lstm" = .ok .cnn_lstm ∧
     get_network_builder "cnn_lnlstm" = .ok .cnn_lnlstm) ∧
    ∀ name : String, name ∉ recognized_names →
      get_network_builder name = .error ("Unknown network type: " ++ name) := by
  refine ⟨⟨rfl, rfl, rfl, rfl, rfl, rfl, rfl⟩, ?_⟩
  intro name hname
  simp only [recognized_names, List.mem_cons, List.not_mem_nil, or_false, not_or] at hname
  obtain ⟨h1, h2, h3, h4, h5, h6, h7⟩ := hname
  simp [get_network_builder, h1, h2, h3, h4, h5, h6, h7]

/-- Witness for C1: the unrecognized name "bogus" fails with the exact
error message. -/
theorem get_network_builder_spec_witness :
    get_network_builder "bogus" = .error "Unknown network type: bogus" :=
  get_network_builder_spec.2 "bogus" (by decide)

/-! ### C2, C3, C9: the mlp builder -/

/-- C2 counterexample: with `num_layers = 0` (an allowed argument), the mlp
network function applied to an input of shape `[2, 3, 4, 5]` returns the bare
flattened input, of shape `[2, 60]`, not `[2, 64]` — so the output is not
`[N, 64]` for every `num_layers` argument. -/
theorem mlp_shape_counterexample :
    mlp_network_fn 0 64 .tanh (T.input [2, 3, 4, 5]) =
      .ok (T.flatten (T.input [2, 3, 4, 5]), none) ∧
    shapeOf (T.flatten (T.input [2, 3, 4, 5])) = .ok [2, 60] ∧
    ([2, 60] : List ℕ) ≠ [2, 64] :=
  ⟨rfl, rfl, by decide⟩

/-- C2 (amended): for `num_layers` equal to 1 or 2 (the default is 2) and any
`num_hidden`/`activation`, the mlp network function applied to an input of
shape `[N, H, W, C]` returns a tensor of shape `[N, 64]` together with `none`
as the auxiliary state. -/
theorem mlp_output_shape (num_layers num_hidden : ℕ) (activation : Act)
    (N H W C : ℕ) (hnl : num_layers = 1 ∨ num_layers = 2) :
    ∃ t, mlp_network_fn num_layers num_hidden activation (T.input [N, H, W, C]) =
        .ok (t, none) ∧ shapeOf t = .ok [N, 64] := by
  rcases hnl with h | h <;> subst h
  · exact ⟨_, rfl, rfl⟩
  · exact ⟨_, rfl, rfl⟩

/-- Witness for C2 (amended) at `num_layers = 2`, input shape `[3, 4, 5, 6]`. -/
theorem mlp_output_shape_witness :
    (2 = 1 ∨ 2 = 2) ∧
    ∃ t, mlp_network_fn 2 32 .tanh (T.input [3, 4, 5, 6]) = .ok (t, none) ∧
      shapeOf t = .ok [3, 64] :=
  ⟨Or.inr rfl, mlp_output_shape 2 32 .tanh 3 4 5 6 (Or.inr rfl)⟩

/-- C3 counterexample: with `num_layers = 0` the mlp network function applies
zero dense layers (it returns the flattened input, and the list of
fully-connected layer widths in the built graph is empty), so it does not
apply exactly two dense layers for every value of the configuration
parameters — `num_layers` is not overridden. -/
theorem mlp_two_layers_counterexample :
    mlp_network_fn 0 7 .tanh (T.input [2, 5]) = .ok (T.flatten (T.input [2, 5]), none) ∧
    fcSpecs (T.flatten (T.input [2, 5])) = [] ∧
    fcSpecs (T.flatten (T.input [2, 5])) ≠ [64, 64] :=
  ⟨rfl, rfl, by decide⟩

/-- C3 (amended): the mlp builder flattens its input; `num_hidden` and
`activation` are overridden by the hard-coded local values (width 64,
rectified-linear), so the built network is independent of them, but
`num_layers` still drives the layer loop; at the default `num_layers = 2` it
applies exactly two dense layers of width 64, each relu-activated. -/
theorem mlp_hardcoded_override (num_layers num_hidden num_hidden' : ℕ)
    (activation activation' : Act) (X : T) :
    mlp_network_fn num_layers num_hidden activation X =
      mlp_network_fn num_layers num_hidden' activation' X ∧
    mlp_network_fn 2 num_hidden activation X =
      .ok (T.act .relu (T.fc (T.act .relu (T.fc (T.flatten X) "mlp_fc0" 64 .sqrtTwo))
        "mlp_fc1" 64 .sqrtTwo), none) ∧
    fcSpecs (T.act .relu (T.fc (T.act .relu (T.fc (T.flatten X) "mlp_fc0" 64 .sqrtTwo))
        "mlp_fc1" 64 .sqrtTwo)) = fcSpecs X ++ [64, 64] ∧
    actSpecs (T.act .relu (T.fc (T.act .relu (T.fc (T.flatten X) "mlp_fc0" 64 .sqrtTwo))
        "mlp_fc1" 64 .sqrtTwo)) = actSpecs X ++ [.relu, .relu] := by
  refine ⟨rfl, rfl, ?_, ?_⟩ <;> simp [fcSpecs, actSpecs]

/-- The layer loop applied twice: both hard-coded layers, in order. -/
theorem mlpLayers_two (h : T) :
    mlpLayers h 2 = .ok (T.act .relu (T.fc (T.act .relu (T.fc h "mlp_fc0" 64 .sqrtTwo))
      "mlp_fc1" 64 .sqrtTwo)) := rfl

/-- The layer loop raises an `IndexError` as soon as it reaches index 2. -/
theorem mlpLayers_overflow (h : T) (n : ℕ) (hn : 2 < n) :
    mlpLayers h n = .error "IndexError: list index out of range" := by
  induction n with
  | zero => omega
  | succ k ih =>
    rcases Nat.lt_or_ge 2 k with hk | hk
    · unfold mlpLayers
      rw [ih hk]
      rfl
    · have hk2 : k = 2 := by omega
      subst hk2
      rfl

/-- C9: the mlp network function really uses `num_layers`: with
`num_layers = 0` it returns the flattened input unchanged, with
`num_layers = 1` it builds exactly one dense layer, and with
`num_layers > 2` it raises an index-out-of-range error (the hard-coded size
and activation lists have length 2). -/
theorem mlp_num_layers_behavior :
    (∀ (num_hidden : ℕ) (activation : Act) (X : T),
        mlp_network_fn 0 num_hidden activation X = .ok (T.flatten X, none)) ∧
    (∀ (num_hidden : ℕ) (activation : Act) (X : T),
        mlp_network_fn 1 num_hidden activation X =
          .ok (T.act .relu (T.fc (T.flatten X) "mlp_fc0" 64 .sqrtTwo), none) ∧
        fcSpecs (T.act .relu (T.fc (T.flatten X) "mlp_fc0" 64 .sqrtTwo)) =
          fcSpecs X ++ [64]) ∧
    (∀ (num_layers num_hidden : ℕ) (activation : Act) (X : T), 2 < num_layers →
        mlp_network_fn num_layers num_hidden activation X =
          .error "IndexError: list index out of range") := by
  refine ⟨fun _ _ _ => rfl, fun _ _ X => ⟨rfl, by simp [fcSpecs]⟩, ?_⟩
  intro num_layers num_hidden activation X hn
  show (do
    let h' ← mlpLayers (T.flatten X) num_layers
    Except.ok (h', none)) = Except.error "IndexError: list index out of range"
  rw [mlpLayers_overflow (T.flatten X) num_layers hn]
  rfl

/-- Witness for C9: concrete behavior at `num_layers` 0, 1 and 3. -/
theorem mlp_num_layers_behavior_witness :
    mlp_network_fn 0 64 .tanh (T.input [2, 3]) = .ok (T.flatten (T.input [2, 3]), none) ∧
    mlp_network_fn 1 64 .tanh (T.input [2, 3]) =
      .ok (T.act .relu (T.fc (T.flatten (T.input [2, 3])) "mlp_fc0" 64 .sqrtTwo), none) ∧
    mlp_network_fn 3 64 .tanh (T.input [2, 3]) =
      .error "IndexError: list index out of range" :=
  ⟨mlp_num_layers_behavior.1 64 .tanh (T.input [2, 3]),
   (mlp_num_layers_behavior.2.1 64 .tanh (T.input [2, 3])).1,
   mlp_num_layers_behavior.2.2 3 64 .tanh (T.input [2, 3]) (by decide)⟩

/-! ### C4: the cnn builder -/

/-- C4: on an input of shape `[N, H, W, C]` (spatial dimensions at least 36,
so all three VALID convolutions fit), the cnn network function first casts to
float and divides by 255, applies exactly three convolutions with filters
32/64/64, kernels 8/4/3, strides 4/2/1, each √2-initialized and
relu-activated, flattens, applies one relu-activated fully-connected layer of
width 512, and the result has shape `[N, 512]` with `none` as the auxiliary
state. -/
theorem cnn_spec (N H W C : ℕ) (hH : 36 ≤ H) (hW : 36 ≤ W) :
    cnn_network_fn (T.input [N, H, W, C]) =
      (T.act .relu (T.fc (T.convToFc (T.act .relu (T.conv (T.act .relu (T.conv
        (T.act .relu (T.conv (T.castDiv255 (T.input [N, H, W, C]))
          "c1" 32 8 4 .sqrtTwo .valid))
        "c2" 64 4 2 .sqrtTwo .valid)) "c3" 64 3 1 .sqrtTwo .valid)))
        "fc1" 512 .sqrtTwo), none) ∧
    convSpecs (cnn_network_fn (T.input [N, H, W, C])).1 =
      [(32, 8, 4), (64, 4, 2), (64, 3, 1)] ∧
    actSpecs (cnn_network_fn (T.input [N, H, W, C])).1 = [.relu, .relu, .relu, .relu] ∧
    fcSpecs (cnn_network_fn (T.input [N, H, W, C])).1 = [512] ∧
    shapeOf (cnn_network_fn (T.input [N, H, W, C])).1 = .ok [N, 512] ∧
    (cnn_network_fn (T.input [N, H, W, C])).2 = none := by
  have h0 : shapeOf (T.castDiv255 (T.input [N, H, W, C])) = Except.ok [N, H, W, C] := rfl
  have h1 : shapeOf (T.act .relu (T.conv (T.castDiv255 (T.input [N, H, W, C]))
      "c1" 32 8 4 .sqrtTwo .valid)) = Except.ok [N, convOut H 8 4, convOut W 8 4, 32] :=
    (shapeOf_act _ _).trans
      (shapeOf_conv_valid h0 "c1" 32 8 4 .sqrtTwo (by omega) (by omega) (by omega))
  have h2 : shapeOf (T.act .relu (T.conv (T.act .relu (T.conv
      (T.castDiv255 (T.input [N, H, W, C])) "c1" 32 8 4 .sqrtTwo .valid))
      "c2" 64 4 2 .sqrtTwo .valid)) =
      Except.ok [N, convOut (convOut H 8 4) 4 2, convOut (convOut W 8 4) 4 2, 64] :=
    (shapeOf_act _ _).trans (shapeOf_conv_valid h1 "c2" 64 4 2 .sqrtTwo
      (by simp only [convOut]; omega) (by simp only [convOut]; omega) (by omega))
  have h3 : shapeOf (T.act .relu (T.conv (T.act .relu (T.conv (T.act .relu (T.conv
      (T.castDiv255 (T.input [N, H, W, C])) "c1" 32 8 4 .sqrtTwo .valid))
      "c2" 64 4 2 .sqrtTwo .valid)) "c3" 64 3 1 .sqrtTwo .valid)) =
      Except.ok [N, convOut (convOut (convOut H 8 4) 4 2) 3 1,
        convOut (convOut (convOut W 8 4) 4 2) 3 1, 64] :=
    (shapeOf_act _ _).trans (shapeOf_conv_valid h2 "c3" 64 3 1 .sqrtTwo
      (by simp only [convOut]; omega) (by simp only [convOut]; omega) (by omega))
  have h4 := shapeOf_convToFc h3
  have h5 : shapeOf (cnn_network_fn (T.input [N, H, W, C])).1 = Except.ok [N, 512] :=
    (shapeOf_act _ _).trans (shapeOf_fc h4 "fc1" 512 .sqrtTwo)
  exact ⟨rfl, rfl, rfl, rfl, h5, rfl⟩

/-- Witness for C4 at the Atari input shape `[1, 84, 84, 4]`. -/
theorem cnn_spec_witness :
    (36 ≤ 84 ∧ 36 ≤ 84) ∧
    shapeOf (cnn_network_fn (T.input [1, 84, 84, 4])).1 = .ok [1, 512] ∧
    (cnn_network_fn (T.input [1, 84, 84, 4])).2 = none :=
  ⟨⟨by omega, by omega⟩, (cnn_spec 1 84 84 4 (by omega) (by omega)).2.2.2.2.1,
    (cnn_spec 1 84 84 4 (by omega) (by omega)).2.2.2.2.2⟩

/-! ### C7: cnn_small and conv_only -/

/-- One `conv_only` loop iteration adds exactly one relu-activated
convolution with the given triple. -/
theorem convSpecs_convLayer (t : T) (p : ℕ × ℕ × ℕ) :
    convSpecs (convLayer t p) = convSpecs t ++ [p] := by
  obtain ⟨nf, rf, st⟩ := p
  rfl

/-- The `conv_only` loop builds exactly the requested convolution triples,
in order. -/
theorem convSpecs_foldl (convs : List (ℕ × ℕ × ℕ)) (t : T) :
    convSpecs (convs.foldl convLayer t) = convSpecs t ++ convs := by
  induction convs generalizing t with
  | nil => simp
  | cons p ps ih =>
    rw [List.foldl_cons, ih, convSpecs_convLayer, List.append_assoc]
    rfl

/-- C7 counterexample: `conv_only` with its default argument builds three
convolution layers, not two, so the builders are not "two-layer"
convolutional variants. -/
theorem conv_only_two_layer_counterexample :
    convSpecs (conv_only_network_fn conv_only_default_convs (T.input [1, 84, 84, 4])).1 =
      [(32, 8, 4), (64, 4, 2), (64, 3, 1)] ∧
    (convSpecs (conv_only_network_fn conv_only_default_convs
      (T.input [1, 84, 84, 4])).1).length ≠ 2 :=
  ⟨rfl, by decide⟩

/-- C7 (amended): `cnn_small` is a fixed lighter-weight variant — divide by
255, two relu-activated convolutions with filters 8/16, kernels 8/4, strides
4/2, then a relu-activated fully-connected layer of width 128, with no
configurable layer list; `conv_only` follows the same
rescale-by-255-and-relu pattern and its convolution layers are configurable
via an ordered list of `(filters, kernel, stride)` triples, defaulting to
three layers. -/
theorem cnn_small_conv_only_spec (s : List ℕ) (convs : List (ℕ × ℕ × ℕ)) :
    cnn_small_network_fn (T.input s) =
      (T.act .relu (T.fc (T.convToFc (T.act .relu (T.conv (T.act .relu (T.conv
        (T.castDiv255 (T.input s)) "c1" 8 8 4 .sqrtTwo .valid))
        "c2" 16 4 2 .sqrtTwo .valid)))
        "fc1" 128 .sqrtTwo), none) ∧
    convSpecs (cnn_small_network_fn (T.input s)).1 = [(8, 8, 4), (16, 4, 2)] ∧
    fcSpecs (cnn_small_network_fn (T.input s)).1 = [128] ∧
    actSpecs (cnn_small_network_fn (T.input s)).1 = [.relu, .relu, .relu] ∧
    (conv_only_network_fn convs (T.input s)).1 =
      convs.foldl convLayer (T.castDiv255 (T.input s)) ∧
    (conv_only_network_fn convs (T.input s)).2 = none ∧
    convSpecs (conv_only_network_fn convs (T.input s)).1 = convs ∧
    conv_only_default_convs = [(32, 8, 4), (64, 4, 2), (64, 3, 1)] := by
  refine ⟨rfl, rfl, rfl, rfl, rfl, rfl, ?_, rfl⟩
  show convSpecs (convs.foldl convLayer (T.castDiv255 (T.input s))) = convs
  rw [convSpecs_foldl]
  rfl

/-! ### C5, C6, C10: the recurrent builders -/

/-- Evaluation of `lstm`'s network function at a positive environment count
on an input with a known batch dimension. -/
theorem lstm_network_fn_eq (nlstm m nbatch : ℕ) (layer_norm : Bool) (X : T)
    (rest : List ℕ) (hX : shapeOf X = .ok (nbatch :: rest)) :
    lstm_network_fn nlstm layer_norm X (m + 1) =
      .ok (T.seqLstm layer_norm (if layer_norm then "lnlstm" else "lstm") nlstm
          (T.flatten X) (T.placeholder [nbatch]) (T.placeholder [m + 1, 2 * nlstm])
          (m + 1) (nbatch / (m + 1)),
        ⟨T.placeholder [m + 1, 2 * nlstm], T.placeholder [nbatch],
          T.seqLstmState layer_norm (if layer_norm then "lnlstm" else "lstm") nlstm
            (T.flatten X) (T.placeholder [nbatch]) (T.placeholder [m + 1, 2 * nlstm])
            (m + 1) (nbatch / (m + 1)),
          List.replicate (m + 1) (List.replicate (2 * nlstm) 0)⟩) := by
  unfold lstm_network_fn
  rw [hX]
  rfl

/-- Evaluation of `cnn_lstm`'s network function at a positive environment
count on an input with a known batch dimension. -/
theorem cnn_lstm_network_fn_eq (nlstm m nbatch : ℕ) (layer_norm : Bool) (X : T)
    (rest : List ℕ) (hX : shapeOf X = .ok (nbatch :: rest)) :
    cnn_lstm_network_fn nlstm layer_norm X (m + 1) =
      .ok (T.seqLstm layer_norm (if layer_norm then "lnlstm" else "lstm") nlstm
          (nature_cnn X) (T.placeholder [nbatch]) (T.placeholder [m + 1, 2 * nlstm])
          (m + 1) (nbatch / (m + 1)),
        ⟨T.placeholder [m + 1, 2 * nlstm], T.placeholder [nbatch],
          T.seqLstmState layer_norm (if layer_norm then "lnlstm" else "lstm") nlstm
            (nature_cnn X) (T.placeholder [nbatch]) (T.placeholder [m + 1, 2 * nlstm])
            (m + 1) (nbatch / (m + 1)),
          List.replicate (m + 1) (List.replicate (2 * nlstm) 0)⟩) := by
  unfold cnn_lstm_network_fn
  rw [hX]
  rfl

/-- C5: for every hidden size `nlstm`, environment count `nenv > 0` and input
with a known batch dimension, the lstm network function returns a state
dictionary with the mask placeholder (shape `[nbatch]`), a state placeholder
of shape `[nenv, 2*nlstm]`, the updated state tensor (of the state
placeholder's shape), and a zero-initialized array of that same shape. -/
theorem lstm_state_dict_spec (nlstm nenv nbatch : ℕ) (layer_norm : Bool) (X : T)
    (rest : List ℕ) (hX : shapeOf X = .ok (nbatch :: rest)) (hnenv : 0 < nenv) :
    ∃ h sd, lstm_network_fn nlstm layer_norm X nenv = .ok (h, sd) ∧
      sd.S = T.placeholder [nenv, 2 * nlstm] ∧
      sd.M = T.placeholder [nbatch] ∧
      shapeOf sd.state = .ok [nenv, 2 * nlstm] ∧
      sd.initial_state = List.replicate nenv (List.replicate (2 * nlstm) (0 : ℚ)) ∧
      sd.initial_state.length = nenv ∧
      (∀ row ∈ sd.initial_state, row.length = 2 * nlstm ∧ ∀ v ∈ row, v = 0) := by
  obtain ⟨m, rfl⟩ : ∃ m, nenv = m + 1 := ⟨nenv - 1, by omega⟩
  refine ⟨_, _, lstm_network_fn_eq nlstm m nbatch layer_norm X rest hX,
    rfl, rfl, rfl, rfl, by simp, ?_⟩
  intro row hrow
  rw [List.eq_of_mem_replicate hrow]
  exact ⟨by simp, fun v hv => List.eq_of_mem_replicate hv⟩

/-- Witness for C5: `lstm(nlstm=128)` at `nenv=2` on an input of shape
`[6, 4]` yields a state placeholder of shape `[2, 256]` and an all-zero
initial-state array of that shape. -/
theorem lstm_state_dict_spec_witness :
    ∃ h sd, lstm_network_fn 128 false (T.input [6, 4]) 2 = .ok (h, sd) ∧
      sd.S = T.placeholder [2, 256] ∧
      sd.M = T.placeholder [6] ∧
      shapeOf sd.state = .ok [2, 256] ∧
      sd.initial_state = List.replicate 2 (List.replicate 256 (0 : ℚ)) ∧
      sd.initial_state.length = 2 ∧
      (∀ row ∈ sd.initial_state, row.length = 256 ∧ ∀ v ∈ row, v = 0) := by
  have h := lstm_state_dict_spec 128 2 6 false (T.input [6, 4]) [4] rfl (by omega)
  exact h

/-- C6: `cnn_lnlstm(nlstm)` is exactly `cnn_lstm(nlstm, layer_norm=True)`,
and for either value of `layer_norm` the two network functions produce
identical output shape and identical state-dictionary shapes (they differ
only inside the recurrent-cell node). -/
theorem cnn_lnlstm_alias_spec (nlstm : ℕ) (X : T) (nenv : ℕ) :
    cnn_lnlstm_network_fn nlstm X nenv = cnn_lstm_network_fn nlstm true X nenv ∧
    ∀ layer_norm : Bool,
      recShapes (cnn_lnlstm_network_fn nlstm X nenv) =
        recShapes (cnn_lstm_network_fn nlstm layer_norm X nenv) := by
  refine ⟨rfl, ?_⟩
  intro ln
  cases ln with
  | true => rfl
  | false =>
    show recShapes (cnn_lstm_network_fn nlstm true X nenv) =
      recShapes (cnn_lstm_network_fn nlstm false X nenv)
    unfold cnn_lstm_network_fn
    cases hX : shapeOf X with
    | error e => rfl
    | ok s =>
      cases s with
      | nil => rfl
      | cons n rest =>
        rcases Nat.eq_zero_or_pos nenv with hn | hn
        · subst hn
          rfl
        · obtain ⟨m, rfl⟩ : ∃ m, nenv = m + 1 := ⟨nenv - 1, by omega⟩
          rfl

/-- C10: both `lstm` and `cnn_lstm` compute the per-environment step count
as the floor division `nbatch // nenv`, raise no error when `nbatch` is not
an exact multiple of `nenv`, and account for only `nenv * nsteps ≤ nbatch`
batch elements in the sequence split — strictly fewer when `nenv` does not
divide `nbatch`. -/
theorem lstm_nsteps_floor_div (nlstm nenv nbatch : ℕ) (layer_norm : Bool) (X : T)
    (rest : List ℕ) (hX : shapeOf X = .ok (nbatch :: rest)) (hnenv : 0 < nenv) :
    (∃ h sd, lstm_network_fn nlstm layer_norm X nenv = .ok (h, sd) ∧
        seqLstmSteps h = some (nenv, nbatch / nenv)) ∧
    (∃ h sd, cnn_lstm_network_fn nlstm layer_norm X nenv = .ok (h, sd) ∧
        seqLstmSteps h = some (nenv, nbatch / nenv)) ∧
    nenv * (nbatch / nenv) ≤ nbatch ∧
    (¬ nenv ∣ nbatch → nenv * (nbatch / nenv) < nbatch) := by
  obtain ⟨m, rfl⟩ : ∃ m, nenv = m + 1 := ⟨nenv - 1, by omega⟩
  refine ⟨⟨_, _, lstm_network_fn_eq nlstm m nbatch layer_norm X rest hX, rfl⟩,
    ⟨_, _, cnn_lstm_network_fn_eq nlstm m nbatch layer_norm X rest hX, rfl⟩, ?_, ?_⟩
  · rw [mul_comm]
    exact Nat.div_mul_le_self nbatch (m + 1)
  · intro hdvd
    refine lt_of_le_of_ne ?_ fun heq => hdvd ⟨nbatch / (m + 1), heq.symm⟩
    rw [mul_comm]
    exact Nat.div_mul_le_self nbatch (m + 1)

/-- Witness for C10: batch 5 with 2 environments gives `nsteps = 2`; only
`2 * 2 = 4 < 5` elements are accounted for, with no error raised. -/
theorem lstm_nsteps_floor_div_witness :
    (∃ h sd, lstm_network_fn 128 false (T.input [5, 3]) 2 = .ok (h, sd) ∧
        seqLstmSteps h = some (2, 2)) ∧
    (∃ h sd, cnn_lstm_network_fn 128 false (T.input [5, 3]) 2 = .ok (h, sd) ∧
        seqLstmSteps h = some (2, 2)) ∧
    2 * 2 ≤ 5 ∧ 2 * 2 < 5 := by
  have h := lstm_nsteps_floor_div 128 2 5 false (T.input [5, 3]) [3] rfl (by omega)
  exact ⟨h.1, h.2.1, h.2.2.1, h.2.2.2 (by decide)⟩

/-! ### C8: observation normalization -/

/-- Clipping lands in the clip interval. -/
theorem clip_by_value_mem (v lo hi : ℚ) (h : lo ≤ hi) :
    lo ≤ clip_by_value v lo hi ∧ clip_by_value v lo hi ≤ hi :=
  ⟨le_min (le_max_right _ _) h, min_le_right _ _⟩

/-- C8: `_normalize_clip_observation` builds a running mean/std estimator
over the per-feature shape `x.shape[1:]`, and every element of the returned
tensor is the input element minus the running mean, divided by the running
standard deviation, clipped to `[min(clip_range), max(clip_range)]`; the
default range is `[-5, 5]`, so with it every output element lies in
`[-5, 5]`; the estimator is returned alongside. -/
theorem normalize_clip_observation_spec (x : VTensor) (clip_range : List ℚ) :
    (normalize_clip_observation x clip_range).2.shape = x.shape.tail ∧
    (normalize_clip_observation x clip_range).1.shape = x.shape ∧
    (∀ ix, (normalize_clip_observation x clip_range).1.val ix =
      clip_by_value
        ((x.val ix - (normalize_clip_observation x clip_range).2.mean ix.tail) /
          (normalize_clip_observation x clip_range).2.std ix.tail)
        (pymin clip_range) (pymax clip_range)) ∧
    pymin clip_range_default = -5 ∧
    pymax clip_range_default = 5 ∧
    (∀ ix, -5 ≤ (normalize_clip_observation x clip_range_default).1.val ix ∧
      (normalize_clip_observation x clip_range_default).1.val ix ≤ 5) := by
  have hmin : pymin clip_range_default = -5 := by norm_num [pymin, clip_range_default]
  have hmax : pymax clip_range_default = 5 := by norm_num [pymax, clip_range_default]
  refine ⟨rfl, rfl, fun ix => rfl, hmin, hmax, ?_⟩
  intro ix
  have h := clip_by_value_mem ((x.val ix - 0) / 1)
    (pymin clip_range_default) (pymax clip_range_default)
    (by rw [hmin, hmax]; norm_num)
  rw [hmin, hmax] at h
  exact h

end Models
